import Mathlib

/-!
Shallow embedding of the CoyaleRash simulation core (src/js/entities/Unit.js,
which also contains the Game class, src/js/entities/Tower.js, and the
Vector2D/Utils module).  JavaScript numbers are modelled as exact rationals;
every distance comparison in the game compares `Math.sqrt(dx*dx+dy*dy)` with a
nonnegative threshold or with another distance, and `sqrt` is strictly
monotone on nonnegative reals, so each such comparison is embedded exactly as
the corresponding comparison of squared distances.  Projectile flight
(`projectile.update`), which normalises a direction vector and therefore
genuinely needs square roots, is embedded separately over the reals at the end
of the file.
-/

namespace CoyaleRash

/-- Model of `Vector2D` (src/unnamed/part_000): a 2D point with rational coordinates. -/
structure Vec where
  x : ℚ
  y : ℚ
deriving DecidableEq

/-- Squared Euclidean distance; exact embedding of `Vector2D.distanceTo`
under the squared-comparison convention described in the file header. -/
def distSq (a b : Vec) : ℚ := (a.x - b.x) ^ 2 + (a.y - b.y) ^ 2

/-- A rectangle `{x, y, width, height}` as used for the placement zones. -/
structure Rect where
  x : ℚ
  y : ℚ
  width : ℚ
  height : ℚ
deriving DecidableEq

/-- Embeds `Utils.pointInRect`: inclusive on all four edges. -/
def pointInRect (p : Vec) (r : Rect) : Prop :=
  r.x ≤ p.x ∧ p.x ≤ r.x + r.width ∧ r.y ≤ p.y ∧ p.y ≤ r.y + r.height

instance (p : Vec) (r : Rect) : Decidable (pointInRect p r) := by
  unfold pointInRect; infer_instance

/-- The two teams, the strings `player` and `enemy` in the source. -/
inductive Team
  | player
  | enemy
deriving DecidableEq

/-- The four unit types of `Unit.getUnitStats`. -/
inductive UnitType
  | knight
  | archer
  | giant
  | wizard
deriving DecidableEq

/-- One row of the stats table in `Unit.getUnitStats`. -/
structure UnitStats where
  health : ℚ
  damage : ℚ
  speed : ℚ
  range : ℚ
  radius : ℚ
deriving DecidableEq

/-- Embeds `Unit.getUnitStats`.  The JS fallback `stats[type] || stats.knight` is
unreachable here because the type enumeration is total. -/
def getUnitStats : UnitType → UnitStats
  | .knight => ⟨1200, 150, 30, 40, 15⟩
  | .archer => ⟨400, 100, 40, 100, 12⟩
  | .giant => ⟨3000, 200, 20, 50, 25⟩
  | .wizard => ⟨600, 250, 35, 120, 12⟩

/-- The combat-relevant state of a `Unit` instance (rendering fields such as
`emoji`, `size`, `facing`, `animationTime`, `velocity` are presentation only
and carry no simulation state read by the claims). -/
structure UnitState where
  position : Vec
  type : UnitType
  team : Team
  alive : Bool
  maxHealth : ℚ
  health : ℚ
  damage : ℚ
  speed : ℚ
  attackRange : ℚ
  radius : ℚ
  lastAttack : ℚ
  attackCooldown : ℚ
deriving DecidableEq

/-- The `Unit` constructor: stats looked up from the type, `alive = true`,
`lastAttack = 0`, `attackCooldown = 1000` milliseconds. -/
def mkUnit (position : Vec) (type : UnitType) (team : Team) : UnitState :=
  let stats := getUnitStats type
  { position := position, type := type, team := team, alive := true,
    maxHealth := stats.health, health := stats.health, damage := stats.damage,
    speed := stats.speed, attackRange := stats.range, radius := stats.radius,
    lastAttack := 0, attackCooldown := 1000 }

/-- Embeds `Unit.takeDamage`: `health -= amount; if (health <= 0) { health = 0;
alive = false; }`. -/
def UnitState.takeDamage (u : UnitState) (amount : ℚ) : UnitState :=
  if u.health - amount ≤ 0 then { u with health := 0, alive := false }
  else { u with health := u.health - amount }

/-- The combat-relevant state of a `Tower` instance. -/
structure TowerState where
  position : Vec
  team : Team
  alive : Bool
  maxHealth : ℚ
  health : ℚ
  damage : ℚ
  attackRange : ℚ
  radius : ℚ
  lastAttack : ℚ
  attackCooldown : ℚ
deriving DecidableEq

/-- The `Tower` constructor: health 2500, damage 200, range 150,
cooldown 800 milliseconds. -/
def mkTower (position : Vec) (team : Team) : TowerState :=
  { position := position, team := team, alive := true, maxHealth := 2500,
    health := 2500, damage := 200, attackRange := 150, radius := 30,
    lastAttack := 0, attackCooldown := 800 }

/-- Embeds `Tower.takeDamage`: identical clamping logic to `Unit.takeDamage`
(`updateHealthDisplay` only writes to the DOM and touches no game state). -/
def TowerState.takeDamage (t : TowerState) (amount : ℚ) : TowerState :=
  if t.health - amount ≤ 0 then { t with health := 0, alive := false }
  else { t with health := t.health - amount }

/-- A combatant: the value a `target` reference points at (a unit or a
tower). -/
inductive Combatant
  | unit (u : UnitState)
  | tower (t : TowerState)
deriving DecidableEq

def Combatant.alive : Combatant → Bool
  | .unit u => u.alive
  | .tower t => t.alive

def Combatant.position : Combatant → Vec
  | .unit u => u.position
  | .tower t => t.position

def Combatant.health : Combatant → ℚ
  | .unit u => u.health
  | .tower t => t.health

def Combatant.takeDamage : Combatant → ℚ → Combatant
  | .unit u, a => .unit (u.takeDamage a)
  | .tower t, a => .tower (t.takeDamage a)

/-- Which closure a projectile's `update` method came from: unit-fired
projectiles (`type: this.type` in `Unit.createProjectile`) use impact radius
10, tower-fired ones (`type: 'tower'` in `Tower.attack`) use 15. -/
inductive ProjKind
  | fromUnit (t : UnitType)
  | fromTower
deriving DecidableEq

/-- The data fields of the ad-hoc projectile object literal. -/
structure ProjState where
  position : Vec
  target : Vec
  speed : ℚ
  damage : ℚ
  team : Team
  alive : Bool
  kind : ProjKind
deriving DecidableEq

/-- The object literal built by `Unit.createProjectile`: origin at the firing
unit, target a clone (snapshot) of the target's current position, speed 200,
the unit's damage and team. -/
def mkUnitProjectile (u : UnitState) (targetPos : Vec) : ProjState :=
  { position := u.position, target := targetPos, speed := 200,
    damage := u.damage, team := u.team, alive := true,
    kind := .fromUnit u.type }

/-- The object literal built by `Tower.attack`: speed 300, the tower's damage
and team, target a snapshot of the target's position. -/
def mkTowerProjectile (t : TowerState) (targetPos : Vec) : ProjState :=
  { position := t.position, target := targetPos, speed := 300,
    damage := t.damage, team := t.team, alive := true, kind := .fromTower }

/-- Embeds `Unit.attack(target, game)` on the cooldown-gated path (game present):
archers and wizards call `createProjectile` and leave the target untouched;
every other type deals direct damage.  Returns the updated target and the
projectile pushed onto `game.projectiles`, if any. -/
def UnitState.attack (u : UnitState) (t : Combatant) :
    Combatant × Option ProjState :=
  match u.type with
  | .archer => (t, some (mkUnitProjectile u t.position))
  | .wizard => (t, some (mkUnitProjectile u t.position))
  | _ => (t.takeDamage u.damage, none)

/-- Embeds `Tower.attack(target, game)`: always creates a projectile; the target's
health is untouched at fire time. -/
def TowerState.attack (tw : TowerState) (t : Combatant) :
    Combatant × Option ProjState :=
  (t, some (mkTowerProjectile tw t.position))

/-- Embeds `Unit.attemptAttack(game)`: the cooldown-gated attack path.  `now` is
`Date.now()`; `tgt` is the unit's current `this.target` reference.  Returns
the unit (with `lastAttack` set to `now` if it fired), the target, and the
spawned projectile, if any. -/
def UnitState.attemptAttack (u : UnitState) (tgt : Option Combatant)
    (now : ℚ) : UnitState × Option Combatant × Option ProjState :=
  match tgt with
  | none => (u, none, none)
  | some t =>
    if !t.alive then (u, some t, none)
    else if now - u.lastAttack < u.attackCooldown then (u, some t, none)
    else if distSq u.position t.position ≤ u.attackRange ^ 2 then
      let r := u.attack t
      ({ u with lastAttack := now }, some r.1, r.2)
    else (u, some t, none)

/-- Embeds `Tower.attemptAttack(game)`: same gating as the unit path with the
tower's stats; the attack itself always spawns a projectile. -/
def TowerState.attemptAttack (tw : TowerState) (tgt : Option Combatant)
    (now : ℚ) : TowerState × Option Combatant × Option ProjState :=
  match tgt with
  | none => (tw, none, none)
  | some t =>
    if !t.alive then (tw, some t, none)
    else if now - tw.lastAttack < tw.attackCooldown then (tw, some t, none)
    else if distSq tw.position t.position ≤ tw.attackRange ^ 2 then
      let r := tw.attack t
      ({ tw with lastAttack := now }, some r.1, r.2)
    else (tw, some t, none)

/-- The closest-candidate scan shared by `Unit.findTarget` and
`Tower.findTarget`: a fold with accumulator variables `closestTarget` /
`closestDistance` (initially `null` / `Infinity`, modelled by `none`), a
candidate filter `keep` that may also inspect the candidate's distance (the
tower scan requires `distance <= attackRange` there), and the strict
`distance < closestDistance` improvement test. -/
def closestScan {α : Type} (keep : α → ℚ → Bool) (d : α → ℚ) :
    Option (α × ℚ) → List α → Option (α × ℚ)
  | acc, [] => acc
  | acc, v :: vs =>
    let dv := d v
    let acc2 :=
      if keep v dv then
        match acc with
        | none => some (v, dv)
        | some (b, db) => if dv < db then some (v, dv) else some (b, db)
      else acc
    closestScan keep d acc2 vs

/-- Embeds `Unit.findTarget(game)`: nearest live opposing unit with no range bound;
if none exists, `game.towers.find(...)` — the first alive opposing tower in
list order. -/
def UnitState.findTarget (u : UnitState) (units : List UnitState)
    (towers : List TowerState) : Option Combatant :=
  match closestScan (fun v _ => !(v.team == u.team) && v.alive)
      (fun v => distSq u.position v.position) none units with
  | some (t, _) => some (.unit t)
  | none =>
    match towers.find? (fun tw => !(tw.team == u.team) && tw.alive) with
    | some tw => some (.tower tw)
    | none => none

/-- Embeds `Tower.findTarget(game)`: nearest live opposing unit, considering only
candidates with `distance <= attackRange`. -/
def TowerState.findTarget (tw : TowerState) (units : List UnitState) :
    Option UnitState :=
  (closestScan
      (fun v dv => !(v.team == tw.team) && v.alive &&
        decide (dv ≤ tw.attackRange ^ 2))
      (fun v => distSq tw.position v.position) none units).map Prod.fst

/-- The simulation-relevant state of the `Game` class.  `maxElixir` and
`elixirRegenRate` are constructor-set fields (10 and 1) that no method ever
reassigns; the canvas dimensions are the parameters the placement zones are
derived from. -/
structure GameState where
  units : List UnitState
  towers : List TowerState
  projectiles : List ProjState
  playerElixir : ℚ
  maxElixir : ℚ
  elixirRegenRate : ℚ
  lastElixirRegen : ℚ
  selectedCard : Option UnitType
  draggingCard : Bool
  mousePos : Vec
  canvasWidth : ℚ
  canvasHeight : ℚ
deriving DecidableEq

/-- The `Game` constructor followed by `initializeTowers`: empty collections,
elixir 10/10 with regen rate 1, no pending card, and the player tower at
`(w/2, h-50)` pushed before the enemy tower at `(w/2, 50)`. -/
def mkGame (w h : ℚ) : GameState :=
  { units := [], towers := [mkTower ⟨w / 2, h - 50⟩ .player,
      mkTower ⟨w / 2, 50⟩ .enemy],
    projectiles := [], playerElixir := 10, maxElixir := 10,
    elixirRegenRate := 1, lastElixirRegen := 0, selectedCard := none,
    draggingCard := false, mousePos := ⟨0, 0⟩, canvasWidth := w,
    canvasHeight := h }

/-- Embeds `this.playerZone`: the lower half of the canvas, the human side's
placement rectangle. -/
def GameState.playerZone (g : GameState) : Rect :=
  ⟨0, g.canvasHeight / 2, g.canvasWidth, g.canvasHeight / 2⟩

/-- Embeds `Game.updateElixir(deltaTime)`: accumulate, and on reaching 1.0 s add the
regen rate, cap at the maximum, and reset the accumulator to 0 (the excess is
discarded, not carried over). -/
def GameState.updateElixir (g : GameState) (dt : ℚ) : GameState :=
  if g.lastElixirRegen + dt ≥ 1 then
    { g with
      playerElixir := min (g.playerElixir + g.elixirRegenRate) g.maxElixir,
      lastElixirRegen := 0 }
  else { g with lastElixirRegen := g.lastElixirRegen + dt }

/-- The `cost` column of `Game.getUnitData` (the other columns duplicate
`getUnitStats` and are unused by `tryPlaceUnit`). -/
def getUnitCost : UnitType → ℚ
  | .knight => 3
  | .archer => 3
  | .giant => 5
  | .wizard => 5

/-- Embeds `Game.cancelCardPlacement`. -/
def GameState.cancelCardPlacement (g : GameState) : GameState :=
  { g with selectedCard := none, draggingCard := false }

/-- Embeds `Game.selectCard(cardType)`. -/
def GameState.selectCard (g : GameState) (c : UnitType) : GameState :=
  { g with selectedCard := some c, draggingCard := true }

/-- Embeds `Game.spawnUnit(type, position, team)`: pushes a freshly constructed unit
onto the end of the unit list. -/
def GameState.spawnUnit (g : GameState) (type : UnitType) (position : Vec)
    (team : Team) : GameState :=
  { g with units := g.units ++ [mkUnit position type team] }

/-- Embeds `Game.tryPlaceUnit` (the spec's `commitPlacement`): cancel outright when
no card is pending or the point is outside the player zone; otherwise spawn
and spend only when the elixir covers the cost, and cancel unconditionally at
the end. -/
def GameState.tryPlaceUnit (g : GameState) : GameState :=
  match g.selectedCard with
  | none => g.cancelCardPlacement
  | some card =>
    if ¬ pointInRect g.mousePos g.playerZone then g.cancelCardPlacement
    else if g.playerElixir ≥ getUnitCost card then
      ({ g.spawnUnit card g.mousePos .player with
          playerElixir := g.playerElixir - getUnitCost card }).cancelCardPlacement
    else g.cancelCardPlacement

/-- A JavaScript runtime fault: the TypeError thrown when `createProjectile`
dereferences an `undefined` game argument. -/
inductive JsError
  | typeError
deriving DecidableEq

instance {ε α : Type} [DecidableEq ε] [DecidableEq α] :
    DecidableEq (Except ε α) := fun a b =>
  match a, b with
  | .error x, .error y =>
    if h : x = y then .isTrue (by rw [h]) else .isFalse (by simp [h])
  | .ok x, .ok y =>
    if h : x = y then .isTrue (by rw [h]) else .isFalse (by simp [h])
  | .error _, .ok _ => .isFalse (fun h => Except.noConfusion h)
  | .ok _, .error _ => .isFalse (fun h => Except.noConfusion h)

/-- Embeds `unit1.attack(unit2)` as called inside `Game.checkCollisions`, without
the `game` argument: melee types deal direct damage to the defender, but for
archers and wizards `createProjectile` dereferences the `undefined` game
(`game.projectiles.push`) and throws a TypeError, modelled as an error. -/
def meleeAttack (attacker defender : UnitState) :
    Except JsError UnitState :=
  match attacker.type with
  | .archer => .error .typeError
  | .wizard => .error .typeError
  | _ => .ok (defender.takeDamage attacker.damage)

/-- One inner-loop iteration of the unit-vs-unit pass of
`Game.checkCollisions` for the index pair `(i, j)`: skip when `unit2` is dead
or friendly; otherwise `unit1` attacks when the distance is strictly below
its range, and then `unit2` — reread, since `takeDamage` mutates the shared
object in place, possibly already dead from the first strike — attacks back
when the distance is strictly below its range. -/
def meleePair (units : List UnitState) (i j : Nat) :
    Except JsError (List UnitState) :=
  match units.get? i, units.get? j with
  | some u1, some u2 =>
    if !u2.alive || u1.team == u2.team then .ok units
    else
      let d := distSq u1.position u2.position
      do
        let units2 ←
          if d < u1.attackRange ^ 2 then
            (meleeAttack u1 u2).map (units.set j)
          else .ok units
        match units2.get? i, units2.get? j with
        | some v1, some v2 =>
          if d < v2.attackRange ^ 2 then
            (meleeAttack v2 v1).map (units2.set i)
          else .ok units2
        | _, _ => .ok units2
  | _, _ => .ok units

/-- The inner `j` loop of the unit-vs-unit pass. -/
def meleeInner (units : List UnitState) (i : Nat) :
    List Nat → Except JsError (List UnitState)
  | [] => .ok units
  | j :: js => do
    let units2 ← meleePair units i j
    meleeInner units2 i js

/-- The outer `i` loop of the unit-vs-unit pass: the `unit1.alive` guard is
evaluated once per `i`, on the state current at that moment. -/
def meleeOuter (units : List UnitState) :
    List Nat → Except JsError (List UnitState)
  | [] => .ok units
  | i :: is => do
    let units2 ←
      match units.get? i with
      | some u1 =>
        if u1.alive then
          meleeInner units i (List.range' (i + 1) (units.length - (i + 1)))
        else .ok units
      | none => .ok units
    meleeOuter units2 is

/-- The full unit-vs-unit combat pass of `Game.checkCollisions`. -/
def meleePass (units : List UnitState) : Except JsError (List UnitState) :=
  meleeOuter units (List.range units.length)

/-- One projectile-vs-unit test of `Game.checkCollisions`: on a hit the unit
takes the projectile's damage and the projectile's alive flag is cleared.
The code never rechecks `projectile.alive`, so a projectile already marked
dead still deals damage, and one projectile can hit several units in the
same pass. -/
def projHit (p : ProjState) (u : UnitState) : ProjState × UnitState :=
  if !(u.team == p.team) && u.alive &&
      decide (distSq p.position u.position < u.radius ^ 2) then
    ({ p with alive := false }, u.takeDamage p.damage)
  else (p, u)

/-- The inner `units.forEach` of the projectile pass for one projectile. -/
def projAgainstUnits (p : ProjState) (units : List UnitState) :
    ProjState × List UnitState :=
  match units with
  | [] => (p, [])
  | u :: us =>
    let r1 := projHit p u
    let r2 := projAgainstUnits r1.1 us
    (r2.1, r1.2 :: r2.2)

/-- The outer `projectiles.forEach` of the projectile pass. -/
def projPass (projectiles : List ProjState) (units : List UnitState) :
    List ProjState × List UnitState :=
  match projectiles with
  | [] => ([], units)
  | p :: ps =>
    let r1 := projAgainstUnits p units
    let r2 := projPass ps r1.2
    (r1.1 :: r2.1, r2.2)

/-- Embeds `Game.checkCollisions`: the unit-vs-unit pass followed by the
projectile-vs-unit pass.  An error is the TypeError thrown when a ranged
unit attacks on the game-less melee path. -/
def GameState.checkCollisions (g : GameState) : Except JsError GameState := do
  let units2 ← meleePass g.units
  let r := projPass g.projectiles units2
  .ok { g with units := r.2, projectiles := r.1 }

/-- The elixir-relevant operations a play session interleaves: a regen tick
(`updateElixir`), a card selection, and a commit attempt (`tryPlaceUnit`). -/
inductive GOp
  | regen (dt : ℚ)
  | select (c : UnitType)
  | place
deriving DecidableEq

def applyOp (g : GameState) : GOp → GameState
  | .regen dt => g.updateElixir dt
  | .select c => g.selectCard c
  | .place => g.tryPlaceUnit

def applyOps (g : GameState) : List GOp → GameState
  | [] => g
  | op :: ops => applyOps (applyOp g op) ops

/-!
Projectile flight (`projectile.update(deltaTime)` in `Unit.createProjectile`
and `Tower.attack`) normalises a direction vector, so it is embedded over the
reals with the genuine square root rather than over ℚ.
-/

/-- A 2D point with real coordinates, for the flight kinematics. -/
structure RVec where
  x : ℝ
  y : ℝ

/-- Embeds `Vector2D.magnitude`. -/
noncomputable def RVec.mag (v : RVec) : ℝ := Real.sqrt (v.x ^ 2 + v.y ^ 2)

/-- Embeds `Vector2D.normalize`: divide by the magnitude when it is positive, else
return the vector unchanged (the zero vector stays zero). -/
noncomputable def RVec.normalize (v : RVec) : RVec :=
  if 0 < v.mag then ⟨v.x / v.mag, v.y / v.mag⟩ else v

/-- Embeds `Vector2D.directionTo`. -/
noncomputable def RVec.directionTo (a b : RVec) : RVec :=
  RVec.normalize ⟨b.x - a.x, b.y - a.y⟩

/-- Embeds `Vector2D.distanceTo`. -/
noncomputable def RVec.distTo (a b : RVec) : ℝ :=
  Real.sqrt ((a.x - b.x) ^ 2 + (a.y - b.y) ^ 2)

/-- The flight-relevant fields of a projectile, over the reals. -/
structure RProj where
  position : RVec
  target : RVec
  speed : ℝ
  damage : ℝ
  team : Team
  alive : Bool
  kind : ProjKind

/-- The impact radius hard-coded in each creating closure: 10 in
`Unit.createProjectile`, 15 in `Tower.attack`. -/
def RProj.impactRadius (p : RProj) : ℝ :=
  match p.kind with
  | .fromUnit _ => 10
  | .fromTower => 15

/-- Embeds `projectile.update(deltaTime)`: step `speed * deltaTime` along the
normalised direction to the captured target point, then clear the alive flag
when the new position is strictly within the impact radius of that point, and
again when it is outside the hard-coded 800 × 600 playfield bounds. -/
noncomputable def RProj.update (p : RProj) (dt : ℝ) : RProj :=
  let dir := p.position.directionTo p.target
  let pos : RVec := ⟨p.position.x + dir.x * (p.speed * dt),
    p.position.y + dir.y * (p.speed * dt)⟩
  let alive1 := if pos.distTo p.target < p.impactRadius then false
    else p.alive
  let alive2 := if pos.x < 0 ∨ pos.x > 800 ∨ pos.y < 0 ∨ pos.y > 600
    then false else alive1
  { p with position := pos, alive := alive2 }

/-!  ## Claim theorems  -/

set_option maxRecDepth 80000

/-- C5: for every combatant (`Unit.takeDamage` and `Tower.takeDamage` behave
identically) and every call with a nonnegative amount, health never
increases and never goes below 0, the alive flag ends false exactly when
health is 0, alive never reverts to true, and a further call on a dead
combatant leaves the observable health at 0. -/
theorem claim5_takeDamage_health_invariants :
    (∀ (u : UnitState) (amount : ℚ), 0 ≤ amount → 0 ≤ u.health →
      (u.alive = false → u.health = 0) →
      ((u.takeDamage amount).health ≤ u.health ∧
        0 ≤ (u.takeDamage amount).health ∧
        ((u.takeDamage amount).alive = false ↔ (u.takeDamage amount).health = 0) ∧
        ((u.takeDamage amount).alive = true → u.alive = true) ∧
        (u.alive = false →
          (u.takeDamage amount).health = 0 ∧ (u.takeDamage amount).alive = false))) ∧
    (∀ (t : TowerState) (amount : ℚ), 0 ≤ amount → 0 ≤ t.health →
      (t.alive = false → t.health = 0) →
      ((t.takeDamage amount).health ≤ t.health ∧
        0 ≤ (t.takeDamage amount).health ∧
        ((t.takeDamage amount).alive = false ↔ (t.takeDamage amount).health = 0) ∧
        ((t.takeDamage amount).alive = true → t.alive = true) ∧
        (t.alive = false →
          (t.takeDamage amount).health = 0 ∧ (t.takeDamage amount).alive = false))) := by
  constructor
  · intro u amount ha hh hwf
    unfold UnitState.takeDamage
    split_ifs with hc
    · exact ⟨hh, le_refl _, by simp, by simp, fun _ => ⟨rfl, rfl⟩⟩
    · push_neg at hc
      refine ⟨by simp; linarith, by simp; linarith, ?_, by simp, ?_⟩
      · simp only [show ({ u with health := u.health - amount } :
          UnitState).alive = u.alive from rfl,
          show ({ u with health := u.health - amount } :
          UnitState).health = u.health - amount from rfl]
        constructor
        · intro hfalse
          have := hwf hfalse
          linarith
        · intro h0
          linarith
      · intro hdead
        have := hwf hdead
        linarith
  · intro t amount ha hh hwf
    unfold TowerState.takeDamage
    split_ifs with hc
    · exact ⟨hh, le_refl _, by simp, by simp, fun _ => ⟨rfl, rfl⟩⟩
    · push_neg at hc
      refine ⟨by simp; linarith, by simp; linarith, ?_, by simp, ?_⟩
      · simp only [show ({ t with health := t.health - amount } :
          TowerState).alive = t.alive from rfl,
          show ({ t with health := t.health - amount } :
          TowerState).health = t.health - amount from rfl]
        constructor
        · intro hfalse
          have := hwf hfalse
          linarith
        · intro h0
          linarith
      · intro hdead
        have := hwf hdead
        linarith

/-- Witness for C5: a freshly spawned knight (1200 health, alive) taking 150
damage. -/
theorem claim5_takeDamage_health_invariants_witness :
    ((mkUnit ⟨0, 0⟩ .knight .player).takeDamage 150).health ≤
      (mkUnit ⟨0, 0⟩ .knight .player).health ∧
    (0 : ℚ) ≤ ((mkUnit ⟨0, 0⟩ .knight .player).takeDamage 150).health ∧
    (((mkUnit ⟨0, 0⟩ .knight .player).takeDamage 150).alive = false ↔
      ((mkUnit ⟨0, 0⟩ .knight .player).takeDamage 150).health = 0) ∧
    (((mkUnit ⟨0, 0⟩ .knight .player).takeDamage 150).alive = true →
      (mkUnit ⟨0, 0⟩ .knight .player).alive = true) ∧
    ((mkUnit ⟨0, 0⟩ .knight .player).alive = false →
      ((mkUnit ⟨0, 0⟩ .knight .player).takeDamage 150).health = 0 ∧
      ((mkUnit ⟨0, 0⟩ .knight .player).takeDamage 150).alive = false) :=
  claim5_takeDamage_health_invariants.1 (mkUnit ⟨0, 0⟩ .knight .player) 150
    (by norm_num) (by norm_num [mkUnit, getUnitStats])
    (by intro h; simp [mkUnit] at h)

/-- C3: `tryPlaceUnit` (the spec's `commitPlacement`) spawns a player unit
and deducts exactly the selected type's cost iff a card is pending, the point
is inside the lower-half player zone, and the elixir covers the cost; in
every other case units and elixir are unchanged; the pending selection is
cleared unconditionally at the end of every commit attempt. -/
theorem claim3_tryPlaceUnit_commit (g : GameState) :
    (g.tryPlaceUnit.selectedCard = none ∧ g.tryPlaceUnit.draggingCard = false) ∧
    (∀ c, g.selectedCard = some c → pointInRect g.mousePos g.playerZone →
      getUnitCost c ≤ g.playerElixir →
      g.tryPlaceUnit.units = g.units ++ [mkUnit g.mousePos c .player] ∧
      g.tryPlaceUnit.playerElixir = g.playerElixir - getUnitCost c) ∧
    (g.selectedCard = none →
      g.tryPlaceUnit.units = g.units ∧
      g.tryPlaceUnit.playerElixir = g.playerElixir) ∧
    (¬ pointInRect g.mousePos g.playerZone →
      g.tryPlaceUnit.units = g.units ∧
      g.tryPlaceUnit.playerElixir = g.playerElixir) ∧
    (∀ c, g.selectedCard = some c → g.playerElixir < getUnitCost c →
      g.tryPlaceUnit.units = g.units ∧
      g.tryPlaceUnit.playerElixir = g.playerElixir) := by
  rcases hsel : g.selectedCard with _ | c
  · have he : g.tryPlaceUnit = g.cancelCardPlacement := by
      simp only [GameState.tryPlaceUnit, hsel]
    rw [he]
    exact ⟨⟨rfl, rfl⟩, fun c0 hc0 => absurd hc0 (by simp),
      fun _ => ⟨rfl, rfl⟩, fun _ => ⟨rfl, rfl⟩,
      fun c0 hc0 => absurd hc0 (by simp)⟩
  · by_cases hpt : pointInRect g.mousePos g.playerZone
    · by_cases hcost : g.playerElixir ≥ getUnitCost c
      · have he : g.tryPlaceUnit =
            ({ g.spawnUnit c g.mousePos .player with
                playerElixir := g.playerElixir - getUnitCost c
              }).cancelCardPlacement := by
          simp only [GameState.tryPlaceUnit, hsel]
          rw [if_neg (not_not_intro hpt), if_pos hcost]
        rw [he]
        refine ⟨⟨rfl, rfl⟩, ?_, ?_, ?_, ?_⟩
        · intro c0 hc0 _ _
          injection hc0 with hcc
          subst hcc
          exact ⟨rfl, rfl⟩
        · intro h0
          exact absurd h0 (by simp)
        · intro h0
          exact absurd hpt h0
        · intro c0 hc0 hlt
          injection hc0 with hcc
          subst hcc
          exact absurd hcost (not_le.mpr hlt)
      · have he : g.tryPlaceUnit = g.cancelCardPlacement := by
          simp only [GameState.tryPlaceUnit, hsel]
          rw [if_neg (not_not_intro hpt), if_neg hcost]
        rw [he]
        refine ⟨⟨rfl, rfl⟩, ?_, ?_, fun h0 => absurd hpt h0,
          fun _ _ _ => ⟨rfl, rfl⟩⟩
        · intro c0 hc0 _ hle
          injection hc0 with hcc
          subst hcc
          exact absurd hle hcost
        · intro h0
          exact absurd h0 (by simp)
    · have he : g.tryPlaceUnit = g.cancelCardPlacement := by
        simp only [GameState.tryPlaceUnit, hsel]
        rw [if_pos hpt]
      rw [he]
      exact ⟨⟨rfl, rfl⟩,
        fun c0 _ hp _ => absurd hp hpt,
        fun h0 => absurd h0 (by simp),
        fun _ => ⟨rfl, rfl⟩,
        fun _ _ _ => ⟨rfl, rfl⟩⟩

/-- Resource well-formedness: the constructor-set constants (regen rate 1,
cap 10) together with the resource bounds the claims assert. -/
def ElixirInv (g : GameState) : Prop :=
  g.elixirRegenRate = 1 ∧ g.maxElixir = 10 ∧
  0 ≤ g.playerElixir ∧ g.playerElixir ≤ 10

lemma getUnitCost_pos (c : UnitType) : 0 < getUnitCost c := by
  cases c <;> norm_num [getUnitCost]

lemma tryPlaceUnit_elixir_cases (g : GameState) :
    g.tryPlaceUnit.playerElixir = g.playerElixir ∨
    ∃ c, g.selectedCard = some c ∧ getUnitCost c ≤ g.playerElixir ∧
      g.tryPlaceUnit.playerElixir = g.playerElixir - getUnitCost c := by
  rcases hsel : g.selectedCard with _ | c
  · left
    simp only [GameState.tryPlaceUnit, hsel]
    rfl
  · by_cases hpt : ¬ pointInRect g.mousePos g.playerZone
    · left
      simp only [GameState.tryPlaceUnit, hsel]
      rw [if_pos hpt]
      rfl
    · by_cases hcost : g.playerElixir ≥ getUnitCost c
      · right
        refine ⟨c, rfl, hcost, ?_⟩
        simp only [GameState.tryPlaceUnit, hsel]
        rw [if_neg hpt, if_pos hcost]
        rfl
      · left
        simp only [GameState.tryPlaceUnit, hsel]
        rw [if_neg hpt, if_neg hcost]
        rfl

lemma tryPlaceUnit_consts (g : GameState) :
    g.tryPlaceUnit.maxElixir = g.maxElixir ∧
    g.tryPlaceUnit.elixirRegenRate = g.elixirRegenRate := by
  rcases hsel : g.selectedCard with _ | c <;>
    simp only [GameState.tryPlaceUnit, hsel]
  · exact ⟨rfl, rfl⟩
  · split_ifs <;> exact ⟨rfl, rfl⟩

lemma elixirInv_applyOp (g : GameState) (op : GOp) (h : ElixirInv g) :
    ElixirInv (applyOp g op) := by
  obtain ⟨hr, hm, h0, h10⟩ := h
  cases op with
  | regen dt =>
    simp only [applyOp, GameState.updateElixir]
    split_ifs with hc
    · exact ⟨hr, hm,
        le_min (by linarith [hr.ge]) (by rw [hm]; norm_num),
        by simp [hm] ⟩
    · exact ⟨hr, hm, h0, h10⟩
  | select c => exact ⟨hr, hm, h0, h10⟩
  | place =>
    have hc := tryPlaceUnit_consts g
    rcases tryPlaceUnit_elixir_cases g with he | ⟨c, _, hcost, he⟩
    · exact ⟨hc.2 ▸ hr, hc.1 ▸ hm, he ▸ h0, he ▸ h10⟩
    · refine ⟨hc.2 ▸ hr, hc.1 ▸ hm, ?_, ?_⟩
      · rw [show applyOp g .place = g.tryPlaceUnit from rfl, he]
        linarith
      · rw [show applyOp g .place = g.tryPlaceUnit from rfl, he]
        have := getUnitCost_pos c
        linarith

lemma elixirInv_applyOps (g : GameState) (ops : List GOp) (h : ElixirInv g) :
    ElixirInv (applyOps g ops) := by
  induction ops generalizing g with
  | nil => exact h
  | cons op ops ih => exact ih _ (elixirInv_applyOp g op h)

/-- C4: the regen phase accumulates deltaTime and, once the accumulator
reaches one second, adds exactly the regen rate, caps at the maximum, and
resets the accumulator to zero with no carry-over, so one call grants at
most one increment (advancing 0.5 s then 0.6 s yields exactly one); over any
sequence of regen ticks, selections and commit attempts the resource stays
within [0, 10]. -/
theorem claim4_elixir_regen_and_bounds :
    (∀ (g : GameState) (dt : ℚ), g.lastElixirRegen + dt < 1 →
      (g.updateElixir dt).playerElixir = g.playerElixir ∧
      (g.updateElixir dt).lastElixirRegen = g.lastElixirRegen + dt) ∧
    (∀ (g : GameState) (dt : ℚ), 1 ≤ g.lastElixirRegen + dt →
      (g.updateElixir dt).playerElixir =
        min (g.playerElixir + g.elixirRegenRate) g.maxElixir ∧
      (g.updateElixir dt).lastElixirRegen = 0) ∧
    (∀ g : GameState, ElixirInv g → g.lastElixirRegen = 0 →
      (g.updateElixir (1/2)).playerElixir = g.playerElixir ∧
      ((g.updateElixir (1/2)).updateElixir (3/5)).playerElixir =
        min (g.playerElixir + 1) 10) ∧
    (∀ (g : GameState) (ops : List GOp), ElixirInv g →
      0 ≤ (applyOps g ops).playerElixir ∧
      (applyOps g ops).playerElixir ≤ 10) := by
  have hlow : ∀ (g : GameState) (dt : ℚ), g.lastElixirRegen + dt < 1 →
      g.updateElixir dt = { g with lastElixirRegen := g.lastElixirRegen + dt } := by
    intro g dt h
    simp only [GameState.updateElixir]
    rw [if_neg (not_le.mpr h)]
  have hhigh : ∀ (g : GameState) (dt : ℚ), 1 ≤ g.lastElixirRegen + dt →
      g.updateElixir dt = { g with
        playerElixir := min (g.playerElixir + g.elixirRegenRate) g.maxElixir,
        lastElixirRegen := 0 } := by
    intro g dt h
    simp only [GameState.updateElixir]
    rw [if_pos h]
  refine ⟨fun g dt h => by rw [hlow g dt h]; exact ⟨rfl, rfl⟩,
    fun g dt h => by rw [hhigh g dt h]; exact ⟨rfl, rfl⟩, ?_, ?_⟩
  · intro g hinv hacc
    obtain ⟨hr, hm, _, _⟩ := hinv
    have h1 : g.updateElixir (1/2) =
        { g with lastElixirRegen := g.lastElixirRegen + 1/2 } :=
      hlow g (1/2) (by rw [hacc]; norm_num)
    constructor
    · rw [h1]
    · rw [h1]
      have h2 : ({ g with lastElixirRegen := g.lastElixirRegen + 1/2 }
          : GameState).updateElixir (3/5) =
          { { g with lastElixirRegen := g.lastElixirRegen + 1/2 } with
            playerElixir := min (g.playerElixir + g.elixirRegenRate) g.maxElixir,
            lastElixirRegen := 0 } :=
        hhigh _ (3/5) (by show 1 ≤ g.lastElixirRegen + 1/2 + 3/5; rw [hacc]; norm_num)
      rw [h2, hr, hm]
  · intro g ops hinv
    have := elixirInv_applyOps g ops hinv
    exact ⟨this.2.2.1, this.2.2.2⟩

/-- Witness for C4: the spec's scenario at a fresh game — advancing 0.5 s
then 0.6 s applies exactly one capped regen increment. -/
theorem claim4_elixir_regen_and_bounds_witness :
    ((mkGame 800 500).updateElixir (1/2)).playerElixir =
      (mkGame 800 500).playerElixir ∧
    (((mkGame 800 500).updateElixir (1/2)).updateElixir (3/5)).playerElixir =
      min ((mkGame 800 500).playerElixir + 1) 10 :=
  claim4_elixir_regen_and_bounds.2.2.1 (mkGame 800 500)
    ⟨rfl, rfl, by norm_num [mkGame], by norm_num [mkGame]⟩ rfl

/-- C6: the cooldown-gated attack path has an effect only when a live target
exists, the distance is within the attack range, and the elapsed time since
`lastAttack` is at least the cooldown (1000 ms for units, 800 ms for towers);
on a successful fire `lastAttack` becomes the current time whether the attack
was melee or ranged. -/
theorem claim6_attemptAttack_gating :
    (∀ (u : UnitState) (t : Combatant) (now : ℚ),
      (t.alive = true → u.attackCooldown ≤ now - u.lastAttack →
        distSq u.position t.position ≤ u.attackRange ^ 2 →
        u.attemptAttack (some t) now =
          ({ u with lastAttack := now }, some (u.attack t).1, (u.attack t).2)) ∧
      (t.alive = false ∨ now - u.lastAttack < u.attackCooldown ∨
          u.attackRange ^ 2 < distSq u.position t.position →
        u.attemptAttack (some t) now = (u, some t, none))) ∧
    (∀ (u : UnitState) (now : ℚ),
      u.attemptAttack none now = (u, none, none)) ∧
    (∀ (tw : TowerState) (t : Combatant) (now : ℚ),
      (t.alive = true → tw.attackCooldown ≤ now - tw.lastAttack →
        distSq tw.position t.position ≤ tw.attackRange ^ 2 →
        tw.attemptAttack (some t) now =
          ({ tw with lastAttack := now }, some (tw.attack t).1, (tw.attack t).2)) ∧
      (t.alive = false ∨ now - tw.lastAttack < tw.attackCooldown ∨
          tw.attackRange ^ 2 < distSq tw.position t.position →
        tw.attemptAttack (some t) now = (tw, some t, none))) ∧
    (∀ (tw : TowerState) (now : ℚ),
      tw.attemptAttack none now = (tw, none, none)) ∧
    (∀ (p : Vec) (ty : UnitType) (tm : Team),
      (mkUnit p ty tm).attackCooldown = 1000) ∧
    (∀ (p : Vec) (tm : Team), (mkTower p tm).attackCooldown = 800) := by
  refine ⟨?_, fun u now => rfl, ?_, fun tw now => rfl,
    fun p ty tm => rfl, fun p tm => rfl⟩
  · intro u t now
    constructor
    · intro halive hcd hrange
      simp only [UnitState.attemptAttack, halive, Bool.not_true, Bool.false_eq_true,
        if_false]
      rw [if_neg (not_lt.mpr hcd), if_pos hrange]
    · intro hfail
      rcases hfail with hdead | hcd | hrange
      · simp only [UnitState.attemptAttack, hdead, Bool.not_false, if_true]
      · simp only [UnitState.attemptAttack]
        split_ifs with h1 <;> rfl
      · have hr2 := not_le.mpr hrange
        simp only [UnitState.attemptAttack]
        split_ifs with h1 h2 <;> rfl
  · intro tw t now
    constructor
    · intro halive hcd hrange
      simp only [TowerState.attemptAttack, halive, Bool.not_true, Bool.false_eq_true,
        if_false]
      rw [if_neg (not_lt.mpr hcd), if_pos hrange]
    · intro hfail
      rcases hfail with hdead | hcd | hrange
      · simp only [TowerState.attemptAttack, hdead, Bool.not_false, if_true]
      · simp only [TowerState.attemptAttack]
        split_ifs with h1 <;> rfl
      · have hr2 := not_le.mpr hrange
        simp only [TowerState.attemptAttack]
        split_ifs with h1 h2 <;> rfl

/-- Witness for C6: a fresh enemy tower fires at a knight 100 away at time
900 ms (cooldown 800 elapsed), updating `lastAttack` to 900. -/
theorem claim6_attemptAttack_gating_witness :
    (Combatant.unit (mkUnit ⟨400, 350⟩ .knight .player)).alive = true ∧
    (mkTower ⟨400, 450⟩ .enemy).attemptAttack
        (some (.unit (mkUnit ⟨400, 350⟩ .knight .player))) 900 =
      ({ mkTower ⟨400, 450⟩ .enemy with lastAttack := 900 },
        some ((mkTower ⟨400, 450⟩ .enemy).attack
          (.unit (mkUnit ⟨400, 350⟩ .knight .player))).1,
        ((mkTower ⟨400, 450⟩ .enemy).attack
          (.unit (mkUnit ⟨400, 350⟩ .knight .player))).2) :=
  ⟨rfl, (claim6_attemptAttack_gating.2.2.1 (mkTower ⟨400, 450⟩ .enemy)
      (.unit (mkUnit ⟨400, 350⟩ .knight .player)) 900).1 rfl
    (by norm_num [mkTower])
    (by norm_num [mkTower, mkUnit, getUnitStats, distSq, Combatant.position])⟩

/-- Counterexample for C8: a tower firing through the cooldown-gated path
does not damage its target at fire time — the knight keeps its full 1200
health and a projectile is appended instead, refuting the clause that lists
the tower among the melee-capable direct-damage types. -/
theorem claim8_tower_direct_damage_cex :
    ((mkTower ⟨400, 450⟩ .player).attack
        (.unit (mkUnit ⟨400, 300⟩ .knight .enemy))).1.health = 1200 ∧
    ((mkTower ⟨400, 450⟩ .player).attack
        (.unit (mkUnit ⟨400, 300⟩ .knight .enemy))).2 =
      some (mkTowerProjectile (mkTower ⟨400, 450⟩ .player) ⟨400, 300⟩) ∧
    ¬ ((mkTower ⟨400, 450⟩ .player).attack
        (.unit (mkUnit ⟨400, 300⟩ .knight .enemy))).1.health = 1000 := by
  refine ⟨rfl, rfl, ?_⟩
  intro h
  rw [show ((mkTower ⟨400, 450⟩ .player).attack
      (.unit (mkUnit ⟨400, 300⟩ .knight .enemy))).1.health = 1200 from rfl] at h
  norm_num at h

/-- C8 (amended): when an attack fires, the melee types knight and giant
apply their damage directly and instantaneously; archers, wizards and towers
instead append a projectile carrying the damage payload, the attacker's team
and a snapshot of the target's position, leaving the target's health
unchanged at fire time. -/
theorem claim8_attack_dispatch (u : UnitState) (t : Combatant) (tw : TowerState) :
    ((u.type = .knight ∨ u.type = .giant) →
      u.attack t = (t.takeDamage u.damage, none)) ∧
    ((u.type = .archer ∨ u.type = .wizard) →
      u.attack t = (t, some (mkUnitProjectile u t.position)) ∧
      (u.attack t).1.health = t.health ∧
      (mkUnitProjectile u t.position).damage = u.damage ∧
      (mkUnitProjectile u t.position).team = u.team ∧
      (mkUnitProjectile u t.position).target = t.position) ∧
    (tw.attack t = (t, some (mkTowerProjectile tw t.position)) ∧
      (tw.attack t).1.health = t.health ∧
      (mkTowerProjectile tw t.position).damage = tw.damage ∧
      (mkTowerProjectile tw t.position).team = tw.team ∧
      (mkTowerProjectile tw t.position).target = t.position) := by
  refine ⟨?_, ?_, rfl, rfl, rfl, rfl, rfl⟩
  · rintro (hty | hty) <;>
      simp only [UnitState.attack, hty]
  · rintro (hty | hty) <;>
      exact ⟨by simp only [UnitState.attack, hty],
        by simp only [UnitState.attack, hty], rfl, rfl, rfl⟩

/-- Witness for C8 (amended): a knight's fire deals direct damage, a
wizard's fire spawns a projectile and leaves the target untouched. -/
theorem claim8_attack_dispatch_witness :
    ((mkUnit ⟨0, 0⟩ .knight .player).attack
        (.unit (mkUnit ⟨0, 30⟩ .archer .enemy))) =
      ((Combatant.unit (mkUnit ⟨0, 30⟩ .archer .enemy)).takeDamage
        (mkUnit ⟨0, 0⟩ .knight .player).damage, none) ∧
    ((mkUnit ⟨0, 0⟩ .wizard .player).attack
        (.unit (mkUnit ⟨0, 30⟩ .archer .enemy))) =
      (.unit (mkUnit ⟨0, 30⟩ .archer .enemy),
        some (mkUnitProjectile (mkUnit ⟨0, 0⟩ .wizard .player) ⟨0, 30⟩)) :=
  ⟨(claim8_attack_dispatch (mkUnit ⟨0, 0⟩ .knight .player)
      (.unit (mkUnit ⟨0, 30⟩ .archer .enemy)) (mkTower ⟨0, 0⟩ .player)).1
      (Or.inl rfl),
    ((claim8_attack_dispatch (mkUnit ⟨0, 0⟩ .wizard .player)
      (.unit (mkUnit ⟨0, 30⟩ .archer .enemy)) (mkTower ⟨0, 0⟩ .player)).2.1
      (Or.inr rfl)).1⟩

/-- C10: collision resolution never touches the towers — the projectile pass
cross-references only the unit list — so a projectile cannot damage a tower;
and a ranged unit whose target is a tower merely spawns a projectile aimed at
the tower's captured position, leaving the tower unchanged at fire time. -/
theorem claim10_projectiles_never_damage_towers :
    (∀ (g g2 : GameState), g.checkCollisions = .ok g2 → g2.towers = g.towers) ∧
    (∀ (u : UnitState) (tw : TowerState),
      (u.type = .archer ∨ u.type = .wizard) →
      u.attack (.tower tw) =
        (.tower tw, some (mkUnitProjectile u tw.position))) := by
  constructor
  · intro g g2 h
    unfold GameState.checkCollisions at h
    cases hm : meleePass g.units with
    | error e =>
      rw [hm] at h
      exact Except.noConfusion h
    | ok us =>
      rw [hm] at h
      have h3 := Except.ok.inj h
      rw [← h3]
  · rintro u tw (hty | hty) <;> simp only [UnitState.attack, hty] <;> rfl

/-- Witness for C10: the empty fresh game resolves collisions successfully
with its two towers intact, and a concrete archer firing at the enemy tower
spawns a projectile without touching it. -/
theorem claim10_projectiles_never_damage_towers_witness :
    (mkGame 800 500).towers = (mkGame 800 500).towers ∧
    (mkUnit ⟨400, 400⟩ .archer .player).attack
        (.tower (mkTower ⟨400, 50⟩ .enemy)) =
      (.tower (mkTower ⟨400, 50⟩ .enemy),
        some (mkUnitProjectile (mkUnit ⟨400, 400⟩ .archer .player)
          (mkTower ⟨400, 50⟩ .enemy).position)) :=
  ⟨claim10_projectiles_never_damage_towers.1 (mkGame 800 500) (mkGame 800 500)
      rfl,
    claim10_projectiles_never_damage_towers.2
      (mkUnit ⟨400, 400⟩ .archer .player) (mkTower ⟨400, 50⟩ .enemy)
      (Or.inl rfl)⟩

lemma ite_false_flag (a : Bool) (A B : Prop) [Decidable A] [Decidable B] :
    ((if B then false else if A then false else a) = false ↔
      (a = false ∨ A ∨ B)) := by
  split_ifs with hB hA
  · simp [hB]
  · simp [hA]
  · simp [hA, hB]

/-- C9: each update step leaves the captured target point (and payload)
untouched, moves the projectile exactly `speed * deltaTime` along the
direction to that point, and clears the alive flag exactly when the new
position is strictly within the impact radius of the point (10 for
unit-fired, 15 for tower-fired) or outside the 800 × 600 playfield bounds. -/
theorem claim9_projectile_flight (p : RProj) (dt : ℝ) :
    ((p.update dt).target = p.target ∧ (p.update dt).speed = p.speed ∧
      (p.update dt).damage = p.damage ∧ (p.update dt).team = p.team ∧
      (p.update dt).kind = p.kind) ∧
    (∀ ty, p.kind = .fromUnit ty → p.impactRadius = 10) ∧
    (p.kind = .fromTower → p.impactRadius = 15) ∧
    ((p.update dt).alive = false ↔
      (p.alive = false ∨
        RVec.distTo (p.update dt).position p.target < p.impactRadius ∨
        ((p.update dt).position.x < 0 ∨ (p.update dt).position.x > 800 ∨
          (p.update dt).position.y < 0 ∨ (p.update dt).position.y > 600))) ∧
    (¬(p.position.x = p.target.x ∧ p.position.y = p.target.y) →
      (p.update dt).position.x = p.position.x +
        (p.target.x - p.position.x) / (p.position.distTo p.target) *
          (p.speed * dt) ∧
      (p.update dt).position.y = p.position.y +
        (p.target.y - p.position.y) / (p.position.distTo p.target) *
          (p.speed * dt) ∧
      RVec.distTo (p.update dt).position p.position = |p.speed * dt|) := by
  refine ⟨⟨rfl, rfl, rfl, rfl, rfl⟩,
    fun ty hk => by simp [RProj.impactRadius, hk],
    fun hk => by simp [RProj.impactRadius, hk], ?_, ?_⟩
  · exact ite_false_flag p.alive _ _
  · intro hne
    have hsub : p.target.x - p.position.x ≠ 0 ∨ p.target.y - p.position.y ≠ 0 := by
      rcases not_and_or.mp hne with hx | hy
      · exact Or.inl (sub_ne_zero.mpr (fun h => hx h.symm))
      · exact Or.inr (sub_ne_zero.mpr (fun h => hy h.symm))
    set dx := p.target.x - p.position.x with hdx
    set dy := p.target.y - p.position.y with hdy
    have hS : 0 < dx ^ 2 + dy ^ 2 := by
      rcases hsub with hx | hy
      · have h1 : 0 < dx ^ 2 :=
          lt_of_le_of_ne (sq_nonneg dx) (Ne.symm (pow_ne_zero 2 hx))
        nlinarith [sq_nonneg dy]
      · have h1 : 0 < dy ^ 2 :=
          lt_of_le_of_ne (sq_nonneg dy) (Ne.symm (pow_ne_zero 2 hy))
        nlinarith [sq_nonneg dx]
    set m := Real.sqrt (dx ^ 2 + dy ^ 2) with hmdef
    have hm : 0 < m := Real.sqrt_pos.mpr hS
    have hm0 : m ≠ 0 := ne_of_gt hm
    have hm2 : m ^ 2 = dx ^ 2 + dy ^ 2 := Real.sq_sqrt hS.le
    have hdist : p.position.distTo p.target = m := by
      unfold RVec.distTo
      rw [hmdef, hdx, hdy]
      congr 1
      ring
    have hdir : p.position.directionTo p.target = ⟨dx / m, dy / m⟩ := by
      unfold RVec.directionTo RVec.normalize
      rw [if_pos (show 0 < RVec.mag ⟨dx, dy⟩ from hm)]
      rfl
    have hpos : (p.update dt).position =
        ⟨p.position.x + dx / m * (p.speed * dt),
          p.position.y + dy / m * (p.speed * dt)⟩ := by
      show (⟨p.position.x + (p.position.directionTo p.target).x * (p.speed * dt),
        p.position.y + (p.position.directionTo p.target).y * (p.speed * dt)⟩ :
          RVec) = _
      rw [hdir]
    refine ⟨by rw [hpos, hdist], by rw [hpos, hdist], ?_⟩
    rw [hpos]
    unfold RVec.distTo
    have harg : (p.position.x + dx / m * (p.speed * dt) - p.position.x) ^ 2 +
        (p.position.y + dy / m * (p.speed * dt) - p.position.y) ^ 2 =
        (p.speed * dt) ^ 2 := by
      have expand : (p.position.x + dx / m * (p.speed * dt) - p.position.x) ^ 2 +
          (p.position.y + dy / m * (p.speed * dt) - p.position.y) ^ 2 =
          (dx ^ 2 + dy ^ 2) / m ^ 2 * (p.speed * dt) ^ 2 := by
        field_simp
        ring
      rw [expand, hm2, div_self (by positivity), one_mul]
    rw [show ((⟨p.position.x + dx / m * (p.speed * dt),
        p.position.y + dy / m * (p.speed * dt)⟩ : RVec).x = 
        p.position.x + dx / m * (p.speed * dt)) from rfl,
      show ((⟨p.position.x + dx / m * (p.speed * dt),
        p.position.y + dy / m * (p.speed * dt)⟩ : RVec).y =
        p.position.y + dy / m * (p.speed * dt)) from rfl,
      harg, Real.sqrt_sq_eq_abs]

/-- Witness for C9 at a concrete projectile flying from the origin toward
(3, 4) with speed 200 over a 0.01 s step: the captured target point is
unchanged and the step covers exactly `speed * deltaTime` distance. -/
theorem claim9_projectile_flight_witness :
    (RProj.update ⟨⟨0, 0⟩, ⟨3, 4⟩, 200, 100, .player, true, .fromUnit .archer⟩
        (1/100)).target = (⟨3, 4⟩ : RVec) ∧
    RVec.distTo
      (RProj.update ⟨⟨0, 0⟩, ⟨3, 4⟩, 200, 100, .player, true, .fromUnit .archer⟩
        (1/100)).position (⟨0, 0⟩ : RVec) = |(200 : ℝ) * (1/100)| := by
  have h := claim9_projectile_flight
    ⟨⟨0, 0⟩, ⟨3, 4⟩, 200, 100, .player, true, .fromUnit .archer⟩ (1/100)
  refine ⟨h.1.1, ?_⟩
  have hmv := h.2.2.2.2 (by
    intro hc
    have h03 : (0 : ℝ) = 3 := hc.1
    norm_num at h03)
  exact hmv.2.2

lemma takeDamage_fields (u : UnitState) (a : ℚ) :
    (u.takeDamage a).team = u.team ∧ (u.takeDamage a).type = u.type ∧
    (u.takeDamage a).damage = u.damage ∧
    (u.takeDamage a).attackRange = u.attackRange ∧
    (u.takeDamage a).position = u.position := by
  unfold UnitState.takeDamage
  split <;> exact ⟨rfl, rfl, rfl, rfl, rfl⟩

lemma meleeAttack_melee (a d : UnitState)
    (h : a.type = .knight ∨ a.type = .giant) :
    meleeAttack a d = .ok (d.takeDamage a.damage) := by
  rcases h with h | h <;> simp [meleeAttack, h]

lemma meleeAttack_ranged (a d : UnitState)
    (h : a.type = .archer ∨ a.type = .wizard) :
    meleeAttack a d = .error .typeError := by
  rcases h with h | h <;> simp [meleeAttack, h]

lemma meleePair_two_melee (u1 u2 : UnitState)
    (halive2 : u2.alive = true) (hteam : u1.team ≠ u2.team)
    (hty1 : u1.type = .knight ∨ u1.type = .giant)
    (hty2 : u2.type = .knight ∨ u2.type = .giant)
    (h1 : distSq u1.position u2.position < u1.attackRange ^ 2)
    (h2 : distSq u1.position u2.position < u2.attackRange ^ 2) :
    meleePair [u1, u2] 0 1 =
      .ok [u1.takeDamage u2.damage, u2.takeDamage u1.damage] := by
  have hbne : (u1.team == u2.team) = false := beq_eq_false_iff_ne.mpr hteam
  have hf2 := takeDamage_fields u2 u1.damage
  simp only [meleePair, List.get?, halive2, hbne, Bool.not_true, Bool.false_or,
    Bool.false_eq_true, if_false]
  rw [if_pos h1, meleeAttack_melee u1 u2 hty1]
  simp only [Except.map, Except.bind, bind, List.set, List.get?]
  rw [hf2.2.2.2.1, if_pos h2,
    meleeAttack_melee _ u1 (by rw [hf2.2.1]; exact hty2)]
  simp only [Except.map, List.set]
  rw [hf2.2.2.1]

lemma meleePass_two_melee (u1 u2 : UnitState)
    (halive1 : u1.alive = true) (halive2 : u2.alive = true)
    (hteam : u1.team ≠ u2.team)
    (hty1 : u1.type = .knight ∨ u1.type = .giant)
    (hty2 : u2.type = .knight ∨ u2.type = .giant)
    (h1 : distSq u1.position u2.position < u1.attackRange ^ 2)
    (h2 : distSq u1.position u2.position < u2.attackRange ^ 2) :
    meleePass [u1, u2] =
      .ok [u1.takeDamage u2.damage, u2.takeDamage u1.damage] := by
  have hpair := meleePair_two_melee u1 u2 halive2 hteam hty1 hty2 h1 h2
  show meleeOuter [u1, u2] (List.range 2) = _
  rw [show List.range 2 = [0, 1] from rfl]
  simp only [meleeOuter, meleeInner, List.get?, halive1, if_true,
    List.length_cons, List.length_nil]
  simp only [Nat.zero_add]
  rw [hpair]
  simp only [Except.bind, bind, List.get?]
  split <;> rfl

lemma meleePair_two_ranged (u1 u2 : UnitState)
    (halive2 : u2.alive = true) (hteam : u1.team ≠ u2.team)
    (hty1 : u1.type = .archer ∨ u1.type = .wizard)
    (h1 : distSq u1.position u2.position < u1.attackRange ^ 2) :
    meleePair [u1, u2] 0 1 = .error .typeError := by
  have hbne : (u1.team == u2.team) = false := beq_eq_false_iff_ne.mpr hteam
  simp only [meleePair, List.get?, halive2, hbne, Bool.not_true, Bool.false_or,
    Bool.false_eq_true, if_false]
  rw [if_pos h1, meleeAttack_ranged u1 u2 hty1]
  rfl

lemma meleePass_two_ranged (u1 u2 : UnitState)
    (halive1 : u1.alive = true) (halive2 : u2.alive = true)
    (hteam : u1.team ≠ u2.team)
    (hty1 : u1.type = .archer ∨ u1.type = .wizard)
    (h1 : distSq u1.position u2.position < u1.attackRange ^ 2) :
    meleePass [u1, u2] = .error .typeError := by
  have hpair := meleePair_two_ranged u1 u2 halive2 hteam hty1 h1
  show meleeOuter [u1, u2] (List.range 2) = _
  rw [show List.range 2 = [0, 1] from rfl]
  simp only [meleeOuter, meleeInner, List.get?, halive1, if_true]
  simp only [Nat.zero_add]
  rw [hpair]
  rfl

lemma projAgainstUnits_all_eligible :
    ∀ (units : List UnitState) (p : ProjState),
      (∀ u ∈ units, u.team ≠ p.team ∧ u.alive = true ∧
        distSq p.position u.position < u.radius ^ 2) →
      (projAgainstUnits p units).2 =
        units.map (fun u => u.takeDamage p.damage) ∧
      (projAgainstUnits p units).1 =
        (if units.isEmpty then p else { p with alive := false }) := by
  intro units
  induction units with
  | nil => exact fun p _ => ⟨rfl, rfl⟩
  | cons u us ih =>
    intro p h
    obtain ⟨hteam, halive, hdist⟩ := h u (List.mem_cons_self u us)
    have hcond : (!(u.team == p.team) && u.alive &&
        decide (distSq p.position u.position < u.radius ^ 2)) = true := by
      simp [halive, hdist, beq_eq_false_iff_ne.mpr hteam]
    have hhit : projHit p u =
        ({ p with alive := false }, u.takeDamage p.damage) := by
      unfold projHit
      rw [if_pos hcond]
    have hrec := ih { p with alive := false }
      (fun v hv => h v (List.mem_cons_of_mem u hv))
    constructor
    · show (projHit p u).2 :: (projAgainstUnits (projHit p u).1 us).2 =
        u.takeDamage p.damage :: us.map (fun v => v.takeDamage p.damage)
      rw [hhit]
      exact congrArg (List.cons (u.takeDamage p.damage)) hrec.1
    · show (projAgainstUnits (projHit p u).1 us).1 =
        if (u :: us).isEmpty then p else { p with alive := false }
      rw [hhit]
      dsimp only
      rw [hrec.2]
      cases us <;> rfl

/-- Counterexample for C1: one live projectile (damage 100, player team)
overlapping two live enemy knights damages both in the same resolution pass —
both healths drop to 1100 — rather than only the first in unit-list order
(which would leave [1100, 1200]); the projectile is marked dead. -/
theorem claim1_projectile_single_hit_cex :
    ((GameState.checkCollisions
      { mkGame 800 500 with
        units := [mkUnit ⟨400, 300⟩ .knight .enemy,
          mkUnit ⟨405, 300⟩ .knight .enemy],
        projectiles := [⟨⟨400, 300⟩, ⟨400, 300⟩, 200, 100, .player, true,
          .fromUnit .archer⟩] }).map
      (fun g => (g.units.map (fun u => u.health),
        g.projectiles.map (fun q => q.alive)))) =
      .ok ([1100, 1100], [false]) ∧
    ((GameState.checkCollisions
      { mkGame 800 500 with
        units := [mkUnit ⟨400, 300⟩ .knight .enemy,
          mkUnit ⟨405, 300⟩ .knight .enemy],
        projectiles := [⟨⟨400, 300⟩, ⟨400, 300⟩, 200, 100, .player, true,
          .fromUnit .archer⟩] }).map
      (fun g => g.units.map (fun u => u.health))) ≠ .ok [1100, 1200] := by
  constructor
  · with_unfolding_all decide
  · with_unfolding_all decide

/-- C1 (amended): the projectile pass never rechecks the projectile's alive
flag, so a projectile whose position overlaps several live opposing units
damages every one of them in the same pass — each exactly once, in list
order — and the projectile is marked dead. -/
theorem claim1_projectile_damages_every_overlapped_unit (p : ProjState)
    (units : List UnitState) (hne : units ≠ [])
    (hall : ∀ u ∈ units, u.team ≠ p.team ∧ u.alive = true ∧
      distSq p.position u.position < u.radius ^ 2) :
    projPass [p] units =
      ([{ p with alive := false }],
        units.map (fun u => u.takeDamage p.damage)) := by
  cases units with
  | nil => exact absurd rfl hne
  | cons u us =>
    have h := projAgainstUnits_all_eligible (u :: us) p hall
    show ((projAgainstUnits p (u :: us)).1 :: [],
      (projAgainstUnits p (u :: us)).2) = _
    rw [h.1, h.2]
    rfl

/-- Witness for C1 (amended): the counterexample state — both overlapped
knights take the projectile's 100 damage and the projectile dies. -/
theorem claim1_projectile_damages_every_overlapped_unit_witness :
    projPass
      [⟨⟨400, 300⟩, ⟨400, 300⟩, 200, 100, .player, true, .fromUnit .archer⟩]
      [mkUnit ⟨400, 300⟩ .knight .enemy, mkUnit ⟨405, 300⟩ .knight .enemy] =
      ([⟨⟨400, 300⟩, ⟨400, 300⟩, 200, 100, .player, false, .fromUnit .archer⟩],
        [(mkUnit ⟨400, 300⟩ .knight .enemy).takeDamage 100,
          (mkUnit ⟨405, 300⟩ .knight .enemy).takeDamage 100]) :=
  claim1_projectile_damages_every_overlapped_unit
    ⟨⟨400, 300⟩, ⟨400, 300⟩, 200, 100, .player, true, .fromUnit .archer⟩
    [mkUnit ⟨400, 300⟩ .knight .enemy, mkUnit ⟨405, 300⟩ .knight .enemy]
    (by simp) (by with_unfolding_all decide)

/-- Counterexample for C2: a live player archer 20 away from a live enemy
knight (well within the archer's 100 attack range) does not deal its damage
directly in the melee collision pass — the pass faults with a TypeError
(`createProjectile` dereferences the missing game argument), so the claimed
direct damage never happens for a ranged attacker. -/
theorem claim2_melee_clash_cex :
    GameState.checkCollisions
      { mkGame 800 500 with
        units := [mkUnit ⟨400, 300⟩ .archer .player,
          mkUnit ⟨400, 320⟩ .knight .enemy] } = .error .typeError := by
  with_unfolding_all decide

/-- C2 (amended): in the melee collision pass, for an opposing live pair with
separation strictly below the attacker's range, a melee-capable attacker
(knight or giant) deals its damage directly and instantaneously, bypassing
the cooldown, and mutually in-range melee units damage each other in the
same tick; when the in-range attacker is ranged (archer or wizard) the pass
instead faults on the undefined game argument. -/
theorem claim2_melee_clash_bypasses_cooldown :
    (∀ (g : GameState) (u1 u2 : UnitState),
      g.units = [u1, u2] → g.projectiles = [] →
      u1.alive = true → u2.alive = true → u1.team ≠ u2.team →
      (u1.type = .knight ∨ u1.type = .giant) →
      (u2.type = .knight ∨ u2.type = .giant) →
      distSq u1.position u2.position < u1.attackRange ^ 2 →
      distSq u1.position u2.position < u2.attackRange ^ 2 →
      g.checkCollisions = .ok { g with
        units := [u1.takeDamage u2.damage, u2.takeDamage u1.damage] }) ∧
    (∀ (g : GameState) (u1 u2 : UnitState),
      g.units = [u1, u2] →
      u1.alive = true → u2.alive = true → u1.team ≠ u2.team →
      (u1.type = .archer ∨ u1.type = .wizard) →
      distSq u1.position u2.position < u1.attackRange ^ 2 →
      g.checkCollisions = .error .typeError) := by
  constructor
  · intro g u1 u2 hu hp halive1 halive2 hteam hty1 hty2 h1 h2
    unfold GameState.checkCollisions
    rw [hu, hp, meleePass_two_melee u1 u2 halive1 halive2 hteam hty1 hty2 h1 h2]
    show (Except.ok { g with
      units := [u1.takeDamage u2.damage, u2.takeDamage u1.damage],
      projectiles := [] } : Except JsError GameState) = _
    rw [show ({ g with
        units := [u1.takeDamage u2.damage, u2.takeDamage u1.damage],
        projectiles := [] } : GameState) = { g with
        units := [u1.takeDamage u2.damage, u2.takeDamage u1.damage],
        projectiles := g.projectiles } from by rw [hp]]
  · intro g u1 u2 hu halive1 halive2 hteam hty1 h1
    unfold GameState.checkCollisions
    rw [hu, meleePass_two_ranged u1 u2 halive1 halive2 hteam hty1 h1]
    rfl

/-- Witness for C2 (amended): the spec's scenario — two opposing knights
placed 20 apart each take exactly 150 damage in the same collision pass,
with no cooldown involved. -/
theorem claim2_melee_clash_bypasses_cooldown_witness :
    GameState.checkCollisions
      { mkGame 800 500 with
        units := [mkUnit ⟨400, 300⟩ .knight .player,
          mkUnit ⟨400, 320⟩ .knight .enemy] } =
      .ok { { mkGame 800 500 with
        units := [mkUnit ⟨400, 300⟩ .knight .player,
          mkUnit ⟨400, 320⟩ .knight .enemy] } with
        units := [(mkUnit ⟨400, 300⟩ .knight .player).takeDamage 150,
          (mkUnit ⟨400, 320⟩ .knight .enemy).takeDamage 150] } :=
  claim2_melee_clash_bypasses_cooldown.1
    { mkGame 800 500 with
      units := [mkUnit ⟨400, 300⟩ .knight .player,
        mkUnit ⟨400, 320⟩ .knight .enemy] }
    (mkUnit ⟨400, 300⟩ .knight .player) (mkUnit ⟨400, 320⟩ .knight .enemy)
    rfl rfl rfl rfl (by decide) (Or.inl rfl) (Or.inl rfl)
    (by with_unfolding_all decide) (by with_unfolding_all decide)

lemma closestScan_spec {α : Type} (keep : α → ℚ → Bool) (d : α → ℚ) :
    ∀ (xs : List α) (acc : Option (α × ℚ)),
      (closestScan keep d acc xs = none ↔
        (acc = none ∧ ∀ v ∈ xs, keep v (d v) = false)) ∧
      (∀ t dt, closestScan keep d acc xs = some (t, dt) →
        ((t ∈ xs ∧ keep t (d t) = true ∧ dt = d t) ∨ acc = some (t, dt)) ∧
        (∀ b db, acc = some (b, db) → dt ≤ db) ∧
        (∀ v ∈ xs, keep v (d v) = true → dt ≤ d v)) := by
  intro xs
  induction xs with
  | nil =>
    intro acc
    constructor
    · simp [closestScan]
    · intro t dt h
      have hacc : acc = some (t, dt) := h
      refine ⟨Or.inr hacc, ?_, by simp⟩
      intro b db hb
      rw [hacc] at hb
      injection hb with hb2
      injection hb2 with hb3 hb4
      rw [hb4]
  | cons v vs ih =>
    intro acc
    by_cases hk : keep v (d v) = true
    · cases acc with
      | none =>
        have hstep : closestScan keep d none (v :: vs) =
            closestScan keep d (some (v, d v)) vs := by
          simp [closestScan, hk]
        constructor
        · rw [hstep, (ih (some (v, d v))).1]
          simp [hk]
        · intro t dt h
          rw [hstep] at h
          obtain ⟨h1, h2, h3⟩ := (ih (some (v, d v))).2 t dt h
          have hA : (t ∈ v :: vs ∧ keep t (d t) = true ∧ dt = d t) := by
            rcases h1 with ⟨hm, hkt, hdt⟩ | heq
            · exact ⟨List.mem_cons_of_mem v hm, hkt, hdt⟩
            · injection heq with heq2
              injection heq2 with hb3 hb4
              rw [← hb3, ← hb4] at *
              exact ⟨List.mem_cons_self v vs, hk, rfl⟩
          refine ⟨Or.inl hA, by simp, ?_⟩
          intro u hu hku
          rcases List.mem_cons.mp hu with rfl | hu2
          · exact h2 u (d u) rfl
          · exact h3 u hu2 hku
      | some bd =>
        obtain ⟨b, db⟩ := bd
        by_cases hlt : d v < db
        · have hstep : closestScan keep d (some (b, db)) (v :: vs) =
              closestScan keep d (some (v, d v)) vs := by
            simp [closestScan, hk, hlt]
          constructor
          · rw [hstep, (ih (some (v, d v))).1]
            simp
          · intro t dt h
            rw [hstep] at h
            obtain ⟨h1, h2, h3⟩ := (ih (some (v, d v))).2 t dt h
            have hA : (t ∈ v :: vs ∧ keep t (d t) = true ∧ dt = d t) := by
              rcases h1 with ⟨hm, hkt, hdt⟩ | heq
              · exact ⟨List.mem_cons_of_mem v hm, hkt, hdt⟩
              · injection heq with heq2
                injection heq2 with hb3 hb4
                rw [← hb3, ← hb4] at *
                exact ⟨List.mem_cons_self v vs, hk, rfl⟩
            refine ⟨Or.inl hA, ?_, ?_⟩
            · intro b2 db2 hb2
              injection hb2 with hb3
              injection hb3 with hb4 hb5
              have hdv := h2 v (d v) rfl
              rw [← hb5]
              exact le_of_lt (lt_of_le_of_lt hdv hlt)
            · intro u hu hku
              rcases List.mem_cons.mp hu with rfl | hu2
              · exact h2 u (d u) rfl
              · exact h3 u hu2 hku
        · have hstep : closestScan keep d (some (b, db)) (v :: vs) =
              closestScan keep d (some (b, db)) vs := by
            simp [closestScan, hk, hlt]
          constructor
          · rw [hstep, (ih (some (b, db))).1]
            simp
          · intro t dt h
            rw [hstep] at h
            obtain ⟨h1, h2, h3⟩ := (ih (some (b, db))).2 t dt h
            refine ⟨?_, ?_, ?_⟩
            · rcases h1 with ⟨hm, hkt, hdt⟩ | heq
              · exact Or.inl ⟨List.mem_cons_of_mem v hm, hkt, hdt⟩
              · exact Or.inr heq
            · intro b2 db2 hb2
              injection hb2 with hb3
              injection hb3 with hb4 hb5
              rw [← hb5]
              exact h2 b db rfl
            · intro u hu hku
              rcases List.mem_cons.mp hu with rfl | hu2
              · exact le_trans (h2 b db rfl) (not_lt.mp hlt)
              · exact h3 u hu2 hku
    · have hstep : closestScan keep d acc (v :: vs) =
          closestScan keep d acc vs := by
        simp [closestScan, hk]
      constructor
      · rw [hstep, (ih acc).1]
        simp only [List.mem_cons]
        constructor
        · rintro ⟨ha, hall⟩
          refine ⟨ha, ?_⟩
          intro u hu
          rcases hu with rfl | hu2
          · exact Bool.not_eq_true _ ▸ (by simpa using hk)
          · exact hall u hu2
        · rintro ⟨ha, hall⟩
          exact ⟨ha, fun u hu => hall u (Or.inr hu)⟩
      · intro t dt h
        rw [hstep] at h
        obtain ⟨h1, h2, h3⟩ := (ih acc).2 t dt h
        refine ⟨?_, h2, ?_⟩
        · rcases h1 with ⟨hm, hkt, hdt⟩ | heq
          · exact Or.inl ⟨List.mem_cons_of_mem v hm, hkt, hdt⟩
          · exact Or.inr heq
        · intro u hu hku
          rcases List.mem_cons.mp hu with rfl | hu2
          · exact absurd hku hk
          · exact h3 u hu2 hku

lemma unit_keep_iff (u v : UnitState) :
    (!(v.team == u.team) && v.alive) = true ↔
      (v.team ≠ u.team ∧ v.alive = true) := by
  simp [Bool.and_eq_true, Bool.not_eq_true', beq_eq_false_iff_ne]

lemma tower_keep_iff (tw : TowerState) (v : UnitState) (dv : ℚ) :
    (!(v.team == tw.team) && v.alive &&
      decide (dv ≤ tw.attackRange ^ 2)) = true ↔
    (v.team ≠ tw.team ∧ v.alive = true ∧ dv ≤ tw.attackRange ^ 2) := by
  simp [Bool.and_eq_true, Bool.not_eq_true', beq_eq_false_iff_ne,
    decide_eq_true_eq, and_assoc]

lemma UnitState.findTarget_closest_unit (u : UnitState)
    (units : List UnitState) (towers : List TowerState)
    (hex : ∃ v ∈ units, v.team ≠ u.team ∧ v.alive = true) :
    ∃ t, u.findTarget units towers = some (.unit t) ∧ t ∈ units ∧
      t.team ≠ u.team ∧ t.alive = true ∧
      (∀ v ∈ units, v.team ≠ u.team → v.alive = true →
        distSq u.position t.position ≤ distSq u.position v.position) := by
  obtain ⟨v0, hv0, hv0p⟩ := hex
  have spec := closestScan_spec (fun v _ => !(v.team == u.team) && v.alive)
    (fun v => distSq u.position v.position) units none
  cases hscan : closestScan (fun v _ => !(v.team == u.team) && v.alive)
      (fun v => distSq u.position v.position) none units with
  | none =>
    exfalso
    have hf := (spec.1.mp hscan).2 v0 hv0
    have ht := (unit_keep_iff u v0).mpr hv0p
    rw [hf] at ht
    exact Bool.false_ne_true ht
  | some td =>
    obtain ⟨t, dt⟩ := td
    obtain ⟨h1, _, h3⟩ := spec.2 t dt hscan
    rcases h1 with ⟨hm, hkt, hdt⟩ | heq
    · refine ⟨t, ?_, hm, ((unit_keep_iff u t).mp hkt).1,
        ((unit_keep_iff u t).mp hkt).2, ?_⟩
      · unfold UnitState.findTarget
        rw [hscan]
      · intro v hv hvt hva
        have := h3 v hv ((unit_keep_iff u v).mpr ⟨hvt, hva⟩)
        rw [hdt] at this
        exact this
    · exact absurd heq (by simp)

lemma towerfb_keep_iff (u : UnitState) (tw : TowerState) :
    (!(tw.team == u.team) && tw.alive) = true ↔
      (tw.team ≠ u.team ∧ tw.alive = true) := by
  simp [Bool.and_eq_true, Bool.not_eq_true', beq_eq_false_iff_ne]

lemma UnitState.findTarget_tower_fallback (u : UnitState)
    (units : List UnitState) (towers : List TowerState)
    (hno : ∀ v ∈ units, ¬(v.team ≠ u.team ∧ v.alive = true)) :
    ((u.findTarget units towers = none ↔
      ∀ tw ∈ towers, ¬(tw.team ≠ u.team ∧ tw.alive = true)) ∧
    (∀ tw, u.findTarget units towers = some (.tower tw) →
      tw ∈ towers ∧ tw.team ≠ u.team ∧ tw.alive = true ∧
      ((∀ t1 ∈ towers, ∀ t2 ∈ towers,
          t1.team ≠ u.team → t1.alive = true →
          t2.team ≠ u.team → t2.alive = true → t1 = t2) →
        ∀ t1 ∈ towers, t1.team ≠ u.team → t1.alive = true →
          distSq u.position tw.position ≤ distSq u.position t1.position))) := by
  have spec := closestScan_spec (fun v _ => !(v.team == u.team) && v.alive)
    (fun v => distSq u.position v.position) units none
  have hscan : closestScan (fun v _ => !(v.team == u.team) && v.alive)
      (fun v => distSq u.position v.position) none units = none :=
    spec.1.mpr ⟨rfl, fun v hv => Bool.eq_false_iff.mpr
      (fun hk => hno v hv ((unit_keep_iff u v).mp hk))⟩
  have hft : u.findTarget units towers =
      match towers.find? (fun tw => !(tw.team == u.team) && tw.alive) with
      | some tw => some (.tower tw)
      | none => none := by
    unfold UnitState.findTarget
    rw [hscan]
  constructor
  · rw [hft]
    cases hfind : towers.find? (fun tw => !(tw.team == u.team) && tw.alive) with
    | none =>
      constructor
      · intro _ tw htw hcon
        exact List.find?_eq_none.mp hfind tw htw
          ((towerfb_keep_iff u tw).mpr hcon)
      · intro _
        rfl
    | some tw2 =>
      constructor
      · intro h
        exact Option.noConfusion h
      · intro hall
        exfalso
        have hp := List.find?_some hfind
        exact hall tw2 (List.mem_of_find?_eq_some hfind)
          ((towerfb_keep_iff u tw2).mp hp)
  · intro tw htw
    rw [hft] at htw
    cases hfind : towers.find? (fun tw => !(tw.team == u.team) && tw.alive) with
    | none =>
      rw [hfind] at htw
      exact Option.noConfusion htw
    | some tw2 =>
      rw [hfind] at htw
      have heq : tw2 = tw := by
        have h2 : Combatant.tower tw2 = .tower tw := Option.some.inj htw
        injection h2
      subst heq
      have hmem := List.mem_of_find?_eq_some hfind
      have hp := List.find?_some hfind
      have hpred := (towerfb_keep_iff u tw2).mp hp
      refine ⟨hmem, hpred.1, hpred.2, ?_⟩
      intro huniq t1 ht1 hn1 ha1
      have ht12 : t1 = tw2 := huniq t1 ht1 tw2 hmem hn1 ha1 hpred.1 hpred.2
      rw [ht12]

lemma mkGame_towers_unique (w h : ℚ) (tm : Team) :
    ∀ t1 ∈ (mkGame w h).towers, ∀ t2 ∈ (mkGame w h).towers,
      t1.team ≠ tm → t2.team ≠ tm → t1 = t2 := by
  intro t1 ht1 t2 ht2 hn1 hn2
  have h1 : t1 = mkTower ⟨w / 2, h - 50⟩ .player ∨
      t1 = mkTower ⟨w / 2, 50⟩ .enemy := by
    simpa [mkGame] using ht1
  have h2 : t2 = mkTower ⟨w / 2, h - 50⟩ .player ∨
      t2 = mkTower ⟨w / 2, 50⟩ .enemy := by
    simpa [mkGame] using ht2
  cases tm <;> rcases h1 with rfl | rfl <;> rcases h2 with rfl | rfl <;>
    first
      | rfl
      | exact absurd rfl hn1
      | exact absurd rfl hn2

lemma TowerState.findTarget_range_bounded (tw : TowerState)
    (units : List UnitState) :
    (tw.findTarget units = none ↔
      ∀ v ∈ units, ¬(v.team ≠ tw.team ∧ v.alive = true ∧
        distSq tw.position v.position ≤ tw.attackRange ^ 2)) ∧
    (∀ t, tw.findTarget units = some t →
      t ∈ units ∧ t.team ≠ tw.team ∧ t.alive = true ∧
      distSq tw.position t.position ≤ tw.attackRange ^ 2 ∧
      ∀ v ∈ units, v.team ≠ tw.team → v.alive = true →
        distSq tw.position v.position ≤ tw.attackRange ^ 2 →
        distSq tw.position t.position ≤ distSq tw.position v.position) := by
  have spec := closestScan_spec
    (fun v dv => !(v.team == tw.team) && v.alive &&
      decide (dv ≤ tw.attackRange ^ 2))
    (fun v => distSq tw.position v.position) units none
  constructor
  · unfold TowerState.findTarget
    rw [Option.map_eq_none']
    rw [spec.1]
    constructor
    · rintro ⟨_, hall⟩ v hv hcon
      exact Bool.false_ne_true
        ((hall v hv) ▸ (tower_keep_iff tw v _).mpr hcon)
    · intro hall
      exact ⟨rfl, fun v hv => Bool.eq_false_iff.mpr
        (fun hk => hall v hv ((tower_keep_iff tw v _).mp hk))⟩
  · intro t htm
    unfold TowerState.findTarget at htm
    rw [Option.map_eq_some'] at htm
    obtain ⟨⟨t2, dt⟩, hscan, heq⟩ := htm
    have ht2 : t2 = t := heq
    subst ht2
    obtain ⟨h1, _, h3⟩ := spec.2 t2 dt hscan
    rcases h1 with ⟨hm, hkt, hdt⟩ | hcon
    · obtain ⟨hk1, hk2, hk3⟩ := (tower_keep_iff tw t2 _).mp hkt
      refine ⟨hm, hk1, hk2, hk3, ?_⟩
      intro v hv hvt hva hvr
      have := h3 v hv ((tower_keep_iff tw v _).mpr ⟨hvt, hva, hvr⟩)
      rw [hdt] at this
      exact this
    · exact absurd hcon (by simp)

/-- C7: target acquisition, recomputed every tick — a unit selects a live
opposing unit at minimum distance with no range bound; with no live opposing
unit it falls back to the alive opposing tower (the game holds one tower per
team, so the first found is the nearest), or no target when none is alive; a
tower considers only live opposing units within its 150 attack range and
picks the closest, or acquires no target when none qualifies. -/
theorem claim7_target_acquisition :
    (∀ (u : UnitState) (units : List UnitState) (towers : List TowerState),
      (∃ v ∈ units, v.team ≠ u.team ∧ v.alive = true) →
      ∃ t, u.findTarget units towers = some (.unit t) ∧ t ∈ units ∧
        t.team ≠ u.team ∧ t.alive = true ∧
        (∀ v ∈ units, v.team ≠ u.team → v.alive = true →
          distSq u.position t.position ≤ distSq u.position v.position)) ∧
    (∀ (u : UnitState) (units : List UnitState) (towers : List TowerState),
      (∀ v ∈ units, ¬(v.team ≠ u.team ∧ v.alive = true)) →
      ((u.findTarget units towers = none ↔
        ∀ tw ∈ towers, ¬(tw.team ≠ u.team ∧ tw.alive = true)) ∧
      (∀ tw, u.findTarget units towers = some (.tower tw) →
        tw ∈ towers ∧ tw.team ≠ u.team ∧ tw.alive = true ∧
        ((∀ t1 ∈ towers, ∀ t2 ∈ towers,
            t1.team ≠ u.team → t1.alive = true →
            t2.team ≠ u.team → t2.alive = true → t1 = t2) →
          ∀ t1 ∈ towers, t1.team ≠ u.team → t1.alive = true →
            distSq u.position tw.position ≤ distSq u.position t1.position)))) ∧
    (∀ (w h : ℚ) (tm : Team), ∀ t1 ∈ (mkGame w h).towers,
      ∀ t2 ∈ (mkGame w h).towers, t1.team ≠ tm → t2.team ≠ tm → t1 = t2) ∧
    (∀ (tw : TowerState) (units : List UnitState),
      (tw.findTarget units = none ↔
        ∀ v ∈ units, ¬(v.team ≠ tw.team ∧ v.alive = true ∧
          distSq tw.position v.position ≤ tw.attackRange ^ 2)) ∧
      (∀ t, tw.findTarget units = some t →
        t ∈ units ∧ t.team ≠ tw.team ∧ t.alive = true ∧
        distSq tw.position t.position ≤ tw.attackRange ^ 2 ∧
        ∀ v ∈ units, v.team ≠ tw.team → v.alive = true →
          distSq tw.position v.position ≤ tw.attackRange ^ 2 →
          distSq tw.position t.position ≤ distSq tw.position v.position)) ∧
    (∀ (p : Vec) (tm : Team), (mkTower p tm).attackRange = 150) :=
  ⟨UnitState.findTarget_closest_unit, UnitState.findTarget_tower_fallback,
    mkGame_towers_unique, TowerState.findTarget_range_bounded,
    fun _ _ => rfl⟩

/-- Witness for C7: a player knight at the origin facing one live enemy
knight 30 below acquires exactly that unit. -/
theorem claim7_target_acquisition_witness :
    ∃ t, (mkUnit ⟨0, 0⟩ .knight .player).findTarget
        [mkUnit ⟨0, 30⟩ .knight .enemy] [] = some (.unit t) ∧
      t ∈ [mkUnit ⟨0, 30⟩ .knight .enemy] ∧
      t.team ≠ (mkUnit ⟨0, 0⟩ .knight .player).team ∧ t.alive = true ∧
      (∀ v ∈ [mkUnit ⟨0, 30⟩ .knight .enemy],
        v.team ≠ (mkUnit ⟨0, 0⟩ .knight .player).team → v.alive = true →
        distSq (mkUnit ⟨0, 0⟩ .knight .player).position t.position ≤
          distSq (mkUnit ⟨0, 0⟩ .knight .player).position v.position) :=
  claim7_target_acquisition.1 (mkUnit ⟨0, 0⟩ .knight .player)
    [mkUnit ⟨0, 30⟩ .knight .enemy] []
    ⟨mkUnit ⟨0, 30⟩ .knight .enemy, by simp, by decide, rfl⟩

end CoyaleRash
